import Mathlib

/-!
Verification of the expectation-propagation core of PyAutoFit
(`autofit/graphical/optimise.py` and `autofit/graphical/utils.py`)
against its natural-language specification.

Numpy arrays are embedded as a row-major flat buffer of rationals together
with a shape; Python dictionaries as insertion-ordered association lists;
fallible code (Python assert / raise / AttributeError) as `Except String`.
Transcendental scipy primitives (digamma, polygamma, log, float powers),
which have no computable rational counterpart, enter as function parameters
of the definitions that use them: every claim checked here is independent
of their values.
-/

namespace PyAutoFit

/-- Variables are used purely as hashable dictionary keys. -/
abbrev Key := ℕ

/-- A numpy `ndarray`: shape plus row-major flat data buffer.
`np.ravel` is the identity on the buffer, `np.reshape` only rewrites
the shape field. -/
structure NdArr where
  shape : List ℕ
  data : List ℚ
deriving DecidableEq, Repr

/-- `utils.Status`: `class Status(NamedTuple): success: bool = True;
messages: Tuple[str, ...] = ()`. -/
structure Status where
  success : Bool := true
  messages : List String := []
deriving DecidableEq, Repr

/-- A value produced by `FlattenArrays.unflatten`: either a plain Python
scalar (the `arr.item()` branch) or an array. -/
inductive UnflatVal
  | scalar (q : ℚ)
  | arr (shape : List ℕ) (data : List ℚ)
deriving DecidableEq, Repr

/-- A `FlattenArrays` instance: the registered `(key, shape)` pairs in
registration (dict insertion) order. `splits`/`inds`/`sizes` are derived
from it, so the list is the whole state. -/
abbrev Reg := List (Key × List ℕ)

/-- `FlattenArrays.flatten`: asserts that every registered key's supplied
array has exactly the registered shape, then concatenates the ravelled
buffers in registration order.  The failed `assert` is the
`.error "AssertionError"` branch, taken before any concatenation.  When
the registration is empty the (vacuous) assert passes but
`np.concatenate([])` itself raises
`ValueError: need at least one array to concatenate`. -/
def flattenA (reg : Reg) (x : Key → NdArr) : Except String (List ℚ) :=
  if ∀ p ∈ reg, (x p.1).shape = p.2 then
    if reg = [] then .error "ValueError: need at least one array to concatenate"
    else .ok ((reg.map fun p => (x p.1).data).flatten)
  else
    .error "AssertionError"

/-- `FlattenArrays.unflatten` on a 1-D vector with `ndim = 1` (the value
`ndim = arr.ndim` takes when `ndim is None`): the vector is cut at the
cumulative sizes `splits`; each slice is reshaped to the registered shape,
except that a key registered with the empty (scalar) shape yields
`slice.item()`, a plain scalar.  Consecutive slices at the cumulative
offsets are rendered as take/drop recursion. -/
def unflatten1 : Reg → List ℚ → List (Key × UnflatVal)
  | [], _ => []
  | (k, s) :: rest, arr =>
    let chunk := arr.take s.prod
    (k, if s = [] then .scalar (chunk.getD 0 0) else .arr s chunk)
      :: unflatten1 rest (arr.drop s.prod)

/-- `FlattenArrays.unflatten` with `ndim = 1` on a 2-D array of shape
`(size, m)` (the batched case, e.g. `unflatten(res.jac.T, ndim=1)`):
`arr[(ind,)]` slices the leading axis into row blocks, the trailing batch
axis `arr_shape = (m,)` is preserved, and each block is reshaped to
`shape * 1 + (m,) = shape ++ [m]`.  Since `arr_shape` is nonempty the
scalar `item()` branch is never taken. -/
def unflattenRows (m : ℕ) : Reg → List (List ℚ) → List (Key × NdArr)
  | [], _ => []
  | (k, s) :: rest, rows =>
    (k, ⟨s ++ [m], (rows.take s.prod).flatten⟩) :: unflattenRows m rest (rows.drop s.prod)

/-- `FlattenArrays.unflatten` with `ndim = 2` on a square 2-D array (the
call `unflatten(result.hess_inv.todense())`, where `ndim = arr.ndim = 2`):
`arr[(ind, ind)]` takes the diagonal block of rows and columns
`[offset, offset + size)`, reshaped to `shape * 2`; a scalar-shaped key
takes the `item()` branch on its 1x1 block. -/
def unflatten2Go (mat : List (List ℚ)) (off : ℕ) : Reg → List (Key × UnflatVal)
  | [] => []
  | (k, s) :: rest =>
    let block := ((mat.drop off).take s.prod).map fun row => (row.drop off).take s.prod
    (k, if s = [] then .scalar ((block.headD []).getD 0 0) else .arr (s ++ s) block.flatten)
      :: unflatten2Go mat (off + s.prod) rest

/-- `FlattenArrays.unflatten` at `ndim = 2` starts its diagonal blocks at
offset 0. -/
def unflatten2 (reg : Reg) (mat : List (List ℚ)) : List (Key × UnflatVal) :=
  unflatten2Go mat 0 reg

/-- Row-major flat matrix product: `A` is `n × k`, `B` is `k × p`, the
result is `n × p`.  Models the 2-D `np.dot` used by `np.linalg.multi_dot`
on the reshaped buffers. -/
def matMulFlat (n k p : ℕ) (A B : List ℚ) : List ℚ :=
  (List.range (n * p)).map fun idx =>
    ((List.range k).map fun t =>
      A.getD ((idx / p) * k + t) 0 * B.getD (t * p + idx % p) 0).sum

/-- Row-major flat transpose of an `rows × cols` matrix (models `jac2d.T`). -/
def transposeFlat (rows cols : ℕ) (A : List ℚ) : List ℚ :=
  (List.range (cols * rows)).map fun idx =>
    A.getD ((idx % rows) * cols + idx / rows) 0

/-- The `n × n` identity matrix as a row-major flat buffer (`np.eye(n)`). -/
def eyeFlat (n : ℕ) : List ℚ :=
  (List.range (n * n)).map fun idx => if idx / n = idx % n then (1 : ℚ) else 0

/-- The chained shape assertion of `utils.propagate_uncertainty`:
`var_shape == cov.shape[:var_ndim] == cov.shape[var_ndim:]`. -/
def puShapesOk (cov jac : NdArr) : Prop :=
  let var_ndim := cov.shape.length / 2
  let det_ndim := jac.shape.length - var_ndim
  jac.shape.drop det_ndim = cov.shape.take var_ndim
    ∧ cov.shape.take var_ndim = cov.shape.drop var_ndim

instance (cov jac : NdArr) : Decidable (puShapesOk cov jac) := by
  unfold puShapesOk; infer_instance

/-- `utils.propagate_uncertainty(cov, jac)`: checks that the trailing
`var_ndim` axes of the Jacobian match both halves of the covariance's
shape, reshapes both to 2-D (identity on the row-major buffers) and
returns `jac2d . cov2d . jac2d.T` reshaped to `det_shape + det_shape`.
The embedding covers `jac.ndim >= cov.ndim // 2` (a rank-deficient
Jacobian would hit Python negative-slice arithmetic never used by the
callers). -/
def propagate_uncertainty (cov jac : NdArr) : Except String NdArr :=
  let var_ndim := cov.shape.length / 2
  let det_ndim := jac.shape.length - var_ndim
  let det_shape := jac.shape.take det_ndim
  let var_shape := jac.shape.drop det_ndim
  if puShapesOk cov jac then
    let var_size := var_shape.prod
    let det_size := det_shape.prod
    let det_cov2d :=
      matMulFlat det_size var_size det_size
        (matMulFlat det_size var_size var_size jac.data cov.data)
        (transposeFlat det_size var_size jac.data)
    .ok ⟨det_shape ++ det_shape, det_cov2d⟩
  else
    .error "AssertionError"

/-- The slice of a scipy `OptimizeResult` read by `OptFactor._parse_result`:
`x`, `success`, `message` (already decoded), `nfev`, `nit`, `status` (the
solver status code, field renamed `statusCode` here), `fun` (renamed
`fval`; `fun` is reserved) and the densified `hess_inv`. -/
structure OptimizeResult where
  x : List ℚ
  success : Bool
  message : String
  nfev : ℕ
  nit : ℕ
  statusCode : ℕ
  fval : ℚ
  hessInvDense : List (List ℚ)
deriving DecidableEq, Repr

/-- Python is dynamically typed: a NamedTuple field holds whatever object
the constructor call put there.  This sum type hosts the values that reach
`OptResult` fields in `optimise.py`. -/
inductive PyObj
  | dict (entries : List (Key × UnflatVal))
  | num (q : ℚ)
  | optRes (r : OptimizeResult)
  | stat (s : Status)
deriving DecidableEq, Repr

/-- `utils.OptResult`: `class OptResult(NamedTuple)` with fields
`mode, hess_inv, log_norm, full_hess_inv, result, status = Status()` in
this order.  Fields are `PyObj`-typed because the Python annotations are
unchecked and `_parse_result` in fact fills them positionally out of
alignment with the annotations. -/
structure OptResult where
  mode : PyObj
  hess_inv : PyObj
  log_norm : PyObj
  full_hess_inv : PyObj
  result : PyObj
  status : PyObj := .stat {}
deriving DecidableEq, Repr

/-- Python `dict.update`: for each entry of `e` in order, overwrite the
value at an existing key or append the new key at the end. -/
def dictSet (d : List (Key × UnflatVal)) (k : Key) (v : UnflatVal) :
    List (Key × UnflatVal) :=
  if d.any fun p => p.1 = k then
    d.map fun p => if p.1 = k then (k, v) else p
  else
    d ++ [(k, v)]

/-- `mode.update(self.fixed_kws)`. -/
def dictUpdate (d e : List (Key × UnflatVal)) : List (Key × UnflatVal) :=
  e.foldl (fun acc p => dictSet acc p.1 p.2) d

/-- The diagnostic string appended by `OptFactor._parse_result`. -/
def diagMessage (r : OptimizeResult) : String :=
  "optimise.find_factor_mode: nfev=" ++ toString r.nfev
    ++ ", nit=" ++ toString r.nit
    ++ ", status=" ++ toString r.statusCode
    ++ ", message=" ++ r.message

/-- `OptFactor._parse_result(result, status=None)` for an optimizer whose
`param_shapes` is `shapes` and whose `fixed_kws` is `fixed`:
* `success, messages = Status() if status is None else status`;
* `success = result.success` — the unpacked prior `success` is a dead
  store, immediately overwritten;
* the diagnostic message is appended to the prior messages;
* `mode = unflatten(result.x)` then `mode.update(fixed_kws)`;
* `covar = unflatten(result.hess_inv.todense())` (the `ndim = 2` case);
* `OptResult(mode, covar, -result.fun, result, Status(success, messages))`
  passes FIVE positional arguments to the SIX-field NamedTuple, so
  `full_hess_inv` receives the raw `OptimizeResult`, `result` receives the
  `Status`, and `status` keeps its default `Status()`. -/
def parse_result (shapes : Reg) (fixed : List (Key × UnflatVal))
    (result : OptimizeResult) (status : Option Status) : OptResult :=
  let prior := status.getD {}
  let success := result.success
  let messages := prior.messages ++ [diagMessage result]
  let mode := dictUpdate (unflatten1 shapes result.x) fixed
  let covar := unflatten2 shapes result.hessInvDense
  { mode := .dict mode
    hess_inv := .dict covar
    log_norm := .num (-result.fval)
    full_hess_inv := .optRes result
    result := .stat ⟨success, messages⟩ }

/-- Python attribute access on the `OptResult` NamedTuple: only the six
declared field names resolve; anything else raises `AttributeError`. -/
def optResultAttr (r : OptResult) (attr : String) : Except String PyObj :=
  if attr = "mode" then .ok r.mode
  else if attr = "hess_inv" then .ok r.hess_inv
  else if attr = "log_norm" then .ok r.log_norm
  else if attr = "full_hess_inv" then .ok r.full_hess_inv
  else if attr = "result" then .ok r.result
  else if attr = "status" then .ok r.status
  else .error ("AttributeError: " ++ attr)

/-- An `UnflatVal` fed back into numpy arithmetic. -/
def UnflatVal.toNd : UnflatVal → NdArr
  | .scalar q => ⟨[], [q]⟩
  | .arr s d => ⟨s, d⟩

/-- `covars.get(det, 0.) + propagate_uncertainty(cov, jac)`: a missing
entry contributes the scalar `0.`, an existing one is added elementwise
(the shapes agree in every call site, so numpy broadcasting degenerates to
elementwise addition). -/
def addCov (old : Option UnflatVal) (new : NdArr) : NdArr :=
  match old with
  | none => new
  | some u => ⟨new.shape, List.zipWith (· + ·) u.toNd.data new.data⟩

/-- Association-list lookup for Python dictionaries (unique keys). -/
def dlookup : List (Key × α) → Key → Option α
  | [], _ => none
  | (k, v) :: rest, k' => if k = k' then some v else dlookup rest k'

/-- `optimise.update_det_cov(res, jacobian)`: reads `covars =
res.inv_hessian` — an attribute the `OptResult` NamedTuple does not have
(its field is named `hess_inv`) — then, for every `((det, v), jac)` in
`jacobian.deterministic_values`, would accumulate
`covars[det] = covars.get(det, 0.) + propagate_uncertainty(covars[v], jac)`.
The accumulation loop is dead code behind the failing attribute lookup. -/
def update_det_cov (res : OptResult)
    (jacobian : List ((Key × Key) × NdArr)) :
    Except String (List (Key × UnflatVal)) := do
  let covarsObj ← optResultAttr res "inv_hessian"
  let covars ← match covarsObj with
    | .dict entries => Except.ok entries
    | _ => Except.error "TypeError"
  jacobian.foldlM
    (fun (covars : List (Key × UnflatVal)) dvj => do
      let ((det, v), jac) := dvj
      let cov ← match dlookup covars v with
        | some c => Except.ok c.toNd
        | none => Except.error "KeyError"
      let prop ← propagate_uncertainty cov jac
      Except.ok (dictSet covars det (.arr (addCov (dlookup covars det) prop).shape
        (addCov (dlookup covars det) prop).data)))
    covars

/-- Python `dict.pop(k, default)`: return the stored value (or the
default) and the dictionary with the entry for `k` removed. -/
def dictPop (d : List (Key × NdArr)) (k : Key) (dflt : NdArr) :
    NdArr × List (Key × NdArr) :=
  match dlookup d k with
  | some v => (v, d.filter fun p => p.1 ≠ k)
  | none => (dflt, d)

/-- The dictionary comprehension opening `OptFactor.maximise`:
`p0 = {v: arrays_dict.pop(v, self.factor_approx.model_dist[v].sample(1)[0])
for v in self.free_vars}`.  `sample` abstracts the random draw from the
model distribution (used only when the key is absent).  Returns `p0`
together with the caller's `arrays_dict` as the pops leave it. -/
def buildP0 (sample : Key → NdArr) :
    List Key → List (Key × NdArr) →
    List (Key × NdArr) × List (Key × NdArr)
  | [], d => ([], d)
  | v :: rest, d =>
    let (val, d') := dictPop d v (sample v)
    let (p0, d'') := buildP0 sample rest d'
    ((v, val) :: p0, d'')

/-- The state of the caller's `arrays_dict` after `OptFactor.maximise`
has built its starting point (the only statement touching it). -/
def maximiseArraysAfter (sample : Key → NdArr) (free : List Key)
    (arrays_dict : List (Key × NdArr)) : List (Key × NdArr) :=
  (buildP0 sample free arrays_dict).2

/-- `LaplaceOptimiser.step(model_approx, factors)`: starts from
`new_approx = model_approx` and, for each factor in order, rebinds
`new_approx` to the approximation returned by `laplace_factor_approx`
on the PREVIOUS `new_approx`, yielding `(factor, new_approx)` each time.
`lfa` abstracts `laplace_factor_approx`'s new approximation (the
discarded status is omitted); `A` is the approximation type, `F` the
factor type. -/
def laplace_step {A F : Type} (lfa : A → F → A) : A → List F → List (F × A)
  | _, [] => []
  | a, f :: fs =>
    let a' := lfa a f
    (f, a') :: laplace_step lfa a' fs

/-- `LaplaceOptimiser.run(model_approx, factors)`:
`for i in range(self.n_iter): for factor, new_approx in
self.step(model_approx, factors): self.history[i, factor] = new_approx`,
then `return new_approx`.  Note `step` is invoked with the original
`model_approx` argument on EVERY sweep.  The history dict is modelled as
its insertion-ordered entry list; the returned value is the last binding
of the leaked loop variable `new_approx` (`none` models the `NameError`
when no factor update ever ran). -/
def laplace_run {A F : Type} (lfa : A → F → A) (model_approx : A)
    (factors : List F) (n_iter : ℕ) :
    List ((ℕ × F) × A) × Option A :=
  (List.range n_iter).foldl
    (fun st i =>
      (laplace_step lfa model_approx factors).foldl
        (fun st' fa => (st'.1 ++ [((i, fa.1), fa.2)], some fa.2)) st)
    ([], none)

/-- Modelled from the spec: the EP outer loop in which "each sweep starts
from the approximation produced by the preceding sweep" (each per-factor
step building on the approximation returned by the previous step), as the
claim describes `run`; returns the approximation produced by the final
factor update of the final sweep. -/
def chained_run {A F : Type} (lfa : A → F → A) (model_approx : A)
    (factors : List F) (n_iter : ℕ) : A :=
  (List.range n_iter).foldl (fun a _ => factors.foldl lfa a) model_approx

section Invpsilog

/- `scipy.special.digamma`, `scipy.special.polygamma(1, ·)`, `np.log` and
the float power `x ** y` have no computable rational embedding; the
definitions below take them as parameters — the verified claims hold for
every choice. -/
variable (digamma polygamma1 qlog : ℚ → ℚ) (rpow : ℚ → ℚ → ℚ)

/-- `utils.psilog(x) = special.digamma(x) - np.log(x)`. -/
def psilog (x : ℚ) : ℚ := digamma x - qlog x

/-- `utils.grad_psilog(x) = special.polygamma(1, x) - 1 / x`. -/
def grad_psilog (x : ℚ) : ℚ := polygamma1 x - 1 / x

/-- The approximate starting guess of `utils.invpsilog`:
`A, beta, gamma = 0.38648347, 0.89486989, 0.78578843`;
`x0 = -(1 - 0.5 * (1 + A * (-c) ** beta) ** -gamma) / c`. -/
def invpsilogStart (c : ℚ) : ℚ :=
  -(1 - (1 / 2) * rpow (1 + (38648347 / 100000000) * rpow (-c) (89486989 / 100000000))
      (-(78578843 / 100000000))) / c

/-- One Newton-Raphson refinement of `invpsilog` (elementwise):
`f0 = psilog(x0) - c; x0 = x0 - f0 / grad_psilog(x0)`. -/
def nrStep (c x : ℚ) : ℚ :=
  x - (psilog digamma qlog x - c) / grad_psilog polygamma1 x

/-- `for _ in range(n)` around `nrStep`. -/
def nrIterate (c : ℚ) : ℕ → ℚ → ℚ
  | 0, x => x
  | n + 1, x => nrIterate c n (nrStep digamma polygamma1 qlog c x)

/-- `utils.invpsilog(c)`: `if not np.all(c < 0): raise ValueError(...)`
before any other work; otherwise the starting guess followed by an
unconditional `for _ in range(4)` of Newton-Raphson refinements — there
is no convergence test — and the result is returned.  The loop is
vectorized in the source; elementwise it is `nrIterate` per entry. -/
def invpsilog (c : List ℚ) : Except String (List ℚ) :=
  if c.all fun x => decide (x < 0) then
    .ok (c.map fun ci =>
      nrIterate digamma polygamma1 qlog ci 4 (invpsilogStart rpow ci))
  else
    .error "values passed must be negative"

end Invpsilog

/-- The tail of `utils.inv_beta_suffstats` after its 5-iteration
Newton-Raphson solve, which involves `np.exp`, `scipy.special.psi`,
`scipy.special.polygamma` and `np.linalg.solve` and is represented here
by its output state `ab` (one `(a, b)` row per element of `lnX`):

```
if np.any(ab < 0):
    warnings.warn("invalid negative parameters found for "
                  "inv_beta_suffstats, clampling value to 0.5", RuntimeWarning)
    b = np.clip(ab, 0.5, None)
shape = np.shape(lnX)
if shape: a = ab[:, 0].reshape(shape); b = ab[:, 1].reshape(shape)
else:     a, b = ab[0, :]
return a, b
```

The clipped array is assigned to a local `b` that both branches below
immediately rebind, so the returned pair is read from the unmodified
`ab`.  The boolean records whether the warning was emitted. -/
def inv_beta_tail (ab : List (ℚ × ℚ)) : Bool × List (ℚ × ℚ) :=
  let warned := ab.any fun p => decide (p.1 < 0) || decide (p.2 < 0)
  let bDead := if warned then some (ab.map fun p => (max p.1 (1 / 2), max p.2 (1 / 2)))
    else none
  let _ := bDead
  (warned, ab)

/-- C1: `LaplaceOptimiser.run` is claimed to chain sweeps (each sweep
starting from the approximation produced by the preceding one).  With the
deterministic single-factor update `a ↦ a + 1`, initial approximation `0`
and `n_iter = 2`, `run` records history `{(0, f): 1, (1, f): 1}` and
returns `1`, because every sweep restarts from the original
`model_approx`; chained sweeps as claimed would return `2`. -/
theorem laplace_run_restarts_each_sweep :
    laplace_run (fun (a : ℕ) (_ : ℕ) => a + 1) 0 [0] 2
      = ([((0, 0), 1), ((1, 0), 1)], some 1)
    ∧ chained_run (fun (a : ℕ) (_ : ℕ) => a + 1) 0 [0] 2 = 2 := by
  exact ⟨rfl, rfl⟩

/-- C2: on a non-converged solver result, `_parse_result` is claimed to
return an `OptResult` whose `status` field has `success = False` plus the
diagnostic message.  Evaluating `_parse_result` at such a result shows the
mode and covariance are populated and no error is raised, but the
`OptResult` is constructed from five positional arguments for six fields:
the diagnostic `Status(False, ...)` lands in the `result` field, the raw
solver result in `full_hess_inv`, and the `status` field keeps its default
`Status(True, ())`. -/
theorem parse_result_misfills_status_field :
    parse_result [(0, [1])] []
      { x := [1], success := false, message := "ABNORMAL_TERMINATION_IN_LNSRCH",
        nfev := 10, nit := 3, statusCode := 2, fval := -5, hessInvDense := [[4]] }
      (some ⟨true, []⟩)
    = { mode := .dict [(0, .arr [1] [1])]
        hess_inv := .dict [(0, .arr [1, 1] [4])]
        log_norm := .num 5
        full_hess_inv := .optRes
          { x := [1], success := false, message := "ABNORMAL_TERMINATION_IN_LNSRCH",
            nfev := 10, nit := 3, statusCode := 2, fval := -5, hessInvDense := [[4]] }
        result := .stat ⟨false,
          ["optimise.find_factor_mode: nfev=10, nit=3, status=2, message=ABNORMAL_TERMINATION_IN_LNSRCH"]⟩
        status := .stat ⟨true, []⟩ } := by
  rfl

/-- C3: the deterministic-variable covariance is claimed to be accumulated
additively into the result's covariance map.  `update_det_cov` first reads
`res.inv_hessian`, an attribute the `OptResult` NamedTuple does not define
(its covariance field is `hess_inv`), so every call — hence every
`find_factor_mode(..., return_cov=True)` — raises `AttributeError` before
any accumulation. -/
theorem update_det_cov_attribute_error (res : OptResult)
    (jacobian : List ((Key × Key) × NdArr)) :
    update_det_cov res jacobian = .error "AttributeError: inv_hessian" := by
  rfl

/-- C5: combining a prior `Status` with a new solver result in
`_parse_result` is claimed to AND the success flags.  With prior
`Status(False, ("step 1 failed",))` and a successful solver result the
produced `Status` has `success = True` — the unpacked prior `success` is
immediately overwritten by `result.success` — whereas
`False AND True = False`.  (The messages are concatenated in order as
claimed; the combined `Status` sits in the `result` field, cf. C2.) -/
theorem parse_result_overwrites_prior_success :
    (parse_result [] []
      { x := [], success := true, message := "CONVERGENCE", nfev := 1, nit := 1,
        statusCode := 0, fval := 0, hessInvDense := [] }
      (some ⟨false, ["step 1 failed"]⟩)).result
      = .stat ⟨true,
          ["step 1 failed",
           "optimise.find_factor_mode: nfev=1, nit=1, status=0, message=CONVERGENCE"]⟩
    ∧ (false && true) = false := by
  exact ⟨rfl, rfl⟩

/-- C6: when the Newton-Raphson solve of `inv_beta_suffstats` leaves a
negative shape parameter, the function is claimed to return values clamped
to the fallback `0.5`.  At post-solve state `ab = [(-1, 2)]` the warning
is emitted (`warned = true`) but the returned parameters are the unclamped
`(-1, 2)` with `a = -1 < 0`: the clipped array `np.clip(ab, 0.5, None)` is
bound to a local `b` that the return path immediately rebinds. -/
theorem inv_beta_tail_passes_negative_through :
    inv_beta_tail [(-1, 2)] = (true, [(-1, 2)]) ∧ (-1 : ℚ) < 0 := by
  exact ⟨rfl, by norm_num⟩

/-- C7: `invpsilog(c)` raises `ValueError` iff some element of `c` is
non-negative, before any Newton-Raphson work; on all-negative input it
performs exactly 4 unconditional Newton-Raphson refinements of the
starting guess (no convergence test) and returns the result — for every
choice of the transcendental primitives. -/
theorem invpsilog_spec (digamma polygamma1 qlog : ℚ → ℚ)
    (rpow : ℚ → ℚ → ℚ) (c : List ℚ) :
    (invpsilog digamma polygamma1 qlog rpow c
        = .error "values passed must be negative" ↔ ∃ x ∈ c, 0 ≤ x)
    ∧ ((∀ x ∈ c, x < 0) →
        invpsilog digamma polygamma1 qlog rpow c
          = .ok (c.map fun ci =>
              nrIterate digamma polygamma1 qlog ci 4 (invpsilogStart rpow ci))) := by
  constructor
  · constructor
    · intro h
      by_contra hno
      push_neg at hno
      have hall : (c.all fun x => decide (x < 0)) = true := by
        rw [List.all_eq_true]
        intro x hx
        exact decide_eq_true (hno x hx)
      rw [invpsilog, if_pos hall] at h
      exact Except.noConfusion h
    · rintro ⟨x, hx, hge⟩
      rw [invpsilog, if_neg]
      intro hall
      rw [List.all_eq_true] at hall
      exact absurd (of_decide_eq_true (hall x hx)) (not_lt.2 hge)
  · intro hall
    rw [invpsilog, if_pos]
    rw [List.all_eq_true]
    exact fun x hx => decide_eq_true (hall x hx)

/-- C7 witness at `c = [-1]` with concrete primitives. -/
theorem invpsilog_spec_witness :
    ((invpsilog (fun _ => 0) (fun _ => 1) (fun _ => 0) (fun _ _ => 1) [-1]
        = .error "values passed must be negative") ↔ ∃ x ∈ ([-1] : List ℚ), 0 ≤ x)
    ∧ invpsilog (fun _ => 0) (fun _ => 1) (fun _ => 0) (fun _ _ => 1) [-1]
        = .ok ([-1].map fun ci =>
            nrIterate (fun _ => 0) (fun _ => 1) (fun _ => 0) ci 4
              (invpsilogStart (fun _ _ => 1) ci)) :=
  ⟨(invpsilog_spec (fun _ => 0) (fun _ => 1) (fun _ => 0) (fun _ _ => 1) [-1]).1,
   (invpsilog_spec (fun _ => 0) (fun _ => 1) (fun _ => 0) (fun _ _ => 1) [-1]).2
     (by decide)⟩

/-- C8 counterexample: on a `FlattenArrays` instance with an empty
registration every supplied shape matches vacuously, yet `flatten` does
not return the (empty) concatenation: `np.concatenate([])` raises
`ValueError`, so the claimed "every shape matches → returns the
concatenation" fails at this instance. -/
theorem flatten_concatenation_fails_on_empty_registration :
    flattenA [] (fun _ => ⟨[], [0]⟩)
      = .error "ValueError: need at least one array to concatenate"
    ∧ (Except.error "ValueError: need at least one array to concatenate"
        ≠ (Except.ok [] : Except String (List ℚ))) := by
  exact ⟨rfl, by simp⟩

/-- C8 (amended): `flatten` fails with an assertion-style error — before
any concatenation — exactly when some registered key's supplied array has
a shape differing from the registered shape (exact equality, no
broadcasting); when every shape matches and at least one key is
registered it returns the 1-D concatenation of the ravelled arrays in
registration order; on an empty registration the vacuous shape check
passes but `np.concatenate([])` raises `ValueError`. -/
theorem flatten_shape_check (reg : Reg) (x : Key → NdArr) :
    (¬ (∀ p ∈ reg, (x p.1).shape = p.2) → flattenA reg x = .error "AssertionError")
    ∧ ((∀ p ∈ reg, (x p.1).shape = p.2) → reg ≠ [] →
        flattenA reg x = .ok ((reg.map fun p => (x p.1).data).flatten))
    ∧ (reg = [] →
        flattenA reg x = .error "ValueError: need at least one array to concatenate") := by
  refine ⟨?_, ?_, ?_⟩
  · intro h
    rw [flattenA, if_neg h]
  · intro h hne
    rw [flattenA, if_pos h, if_neg hne]
  · intro h
    subst h
    rw [flattenA, if_pos (fun p hp => absurd hp (List.not_mem_nil p)), if_pos rfl]

/-- C8 witness: a broadcast-compatible but unequal shape `(2, 1)` against
registration `(2,)` is rejected; exact shapes concatenate in order; the
empty registration raises `ValueError`. -/
theorem flatten_shape_check_witness :
    flattenA [(0, [2])] (fun _ => ⟨[2, 1], [3, 4]⟩) = .error "AssertionError"
    ∧ flattenA [(0, [2]), (1, [])]
        (fun k => if k = 0 then ⟨[2], [3, 4]⟩ else ⟨[], [5]⟩) = .ok [3, 4, 5]
    ∧ flattenA [] (fun _ => ⟨[], [9]⟩)
        = .error "ValueError: need at least one array to concatenate" := by
  refine ⟨(flatten_shape_check [(0, [2])] _).1 (by decide), ?_,
    (flatten_shape_check [] (fun _ => ⟨[], [9]⟩)).2.2 rfl⟩
  have h := (flatten_shape_check [(0, [2]), (1, [])]
    (fun k => if k = 0 then ⟨[2], [3, 4]⟩ else ⟨[], [5]⟩)).2.1 (by decide) (by decide)
  rw [h]
  rfl

/-- Cutting the concatenation of the per-key buffers at the cumulative
sizes recovers each buffer: the `unflatten ∘ flatten` direction at the
natural rank of the flat vector. -/
theorem unflatten1_flatten (reg : Reg) (x : Key → NdArr)
    (hlen : ∀ p ∈ reg, (x p.1).data.length = p.2.prod) :
    unflatten1 reg ((reg.map fun p => (x p.1).data).flatten)
      = reg.map fun p =>
          (p.1, if p.2 = [] then UnflatVal.scalar ((x p.1).data.getD 0 0)
                else UnflatVal.arr p.2 (x p.1).data) := by
  induction reg with
  | nil => rfl
  | cons p rest ih =>
    obtain ⟨k, s⟩ := p
    have hhead : (x k).data.length = s.prod := hlen (k, s) (by simp)
    simp only [List.map_cons, List.flatten_cons, unflatten1]
    rw [List.take_left' hhead, List.drop_left' hhead,
      ih fun q hq => hlen q (List.mem_cons_of_mem _ hq)]

/-- The batched (`ndim = 1`, trailing batch axis) analogue: cutting the
vertically stacked row blocks recovers each key's block. -/
theorem unflattenRows_stack (m : ℕ) (reg : Reg) (blk : Key → List (List ℚ))
    (hblk : ∀ p ∈ reg, (blk p.1).length = p.2.prod) :
    unflattenRows m reg ((reg.map fun p => blk p.1).flatten)
      = reg.map fun p => (p.1, ⟨p.2 ++ [m], (blk p.1).flatten⟩) := by
  induction reg with
  | nil => rfl
  | cons p rest ih =>
    obtain ⟨k, s⟩ := p
    have hhead : (blk k).length = s.prod := hblk (k, s) (by simp)
    simp only [List.map_cons, List.flatten_cons, unflattenRows]
    rw [List.take_left' hhead, List.drop_left' hhead,
      ih fun q hq => hblk q (List.mem_cons_of_mem _ hq)]

/-- C4 counterexample: the empty-registration `FlattenArrays` instance
(every supplied shape vacuously matches) cannot round-trip: `flatten`
raises `ValueError` from `np.concatenate([])`, so `unflatten(flatten(x))`
has no value at all, refuting the claimed round trip at this instance. -/
theorem flatten_roundtrip_fails_on_empty_registration :
    flattenA [] (fun _ => ⟨[], [1]⟩)
      = .error "ValueError: need at least one array to concatenate"
    ∧ ¬ ∃ v, flattenA [] (fun _ => (⟨[], [1]⟩ : NdArr)) = .ok v := by
  refine ⟨rfl, ?_⟩
  rintro ⟨v, hv⟩
  simp [flattenA] at hv

/-- C4 (amended): for every `FlattenArrays` registration with at least one
registered key and every assignment of exactly the registered shapes,
`flatten` succeeds and `unflatten` of the result restores every key's
array elementwise, a key registered with the scalar (empty) shape coming
back as a plain scalar; and batched `ndim = 1` unflattening of a rank-2
stack (batch along the trailing axis) restores each key's row block with
shape `registered ++ [m]`.  (The empty registration cannot round-trip:
its `flatten` raises `ValueError`.) -/
theorem flatten_unflatten_roundtrip (reg : Reg) (hne : reg ≠ [])
    (x : Key → NdArr)
    (hsh : ∀ p ∈ reg, (x p.1).shape = p.2)
    (hlen : ∀ p ∈ reg, (x p.1).data.length = p.2.prod)
    (m : ℕ) (blk : Key → List (List ℚ))
    (hblk : ∀ p ∈ reg, (blk p.1).length = p.2.prod) :
    (∃ v, flattenA reg x = .ok v ∧
      unflatten1 reg v = reg.map fun p =>
        (p.1, if p.2 = [] then UnflatVal.scalar ((x p.1).data.getD 0 0)
              else UnflatVal.arr p.2 (x p.1).data))
    ∧ unflattenRows m reg ((reg.map fun p => blk p.1).flatten)
        = reg.map fun p => (p.1, ⟨p.2 ++ [m], (blk p.1).flatten⟩) := by
  refine ⟨⟨(reg.map fun p => (x p.1).data).flatten, ?_, unflatten1_flatten reg x hlen⟩,
    unflattenRows_stack m reg blk hblk⟩
  rw [flattenA, if_pos hsh, if_neg hne]

/-- C4 witness: registration `{0: (2,), 1: ()}`; the scalar key `1` comes
back as the plain scalar `5`; the batched stack with `m = 1` splits into
the two blocks. -/
theorem flatten_unflatten_roundtrip_witness :
    (∃ v, flattenA [(0, [2]), (1, [])]
        (fun k => if k = 0 then ⟨[2], [3, 4]⟩ else ⟨[], [5]⟩) = .ok v ∧
      unflatten1 [(0, [2]), (1, [])] v
        = [(0, UnflatVal.arr [2] [3, 4]), (1, UnflatVal.scalar 5)])
    ∧ unflattenRows 1 [(0, [2]), (1, [])]
        (([(0, [2]), (1, [])].map fun p =>
          if p.1 = 0 then [[6], [7]] else [[8]]).flatten)
        = [(0, ⟨[2, 1], [6, 7]⟩), (1, ⟨[1], [8]⟩)] := by
  have h := flatten_unflatten_roundtrip [(0, [2]), (1, [])] (by decide)
    (fun k => if k = 0 then ⟨[2], [3, 4]⟩ else ⟨[], [5]⟩)
    (by decide) (by decide) 1
    (fun k => if k = 0 then [[6], [7]] else [[8]])
    (by decide)
  obtain ⟨⟨v, hv, hu⟩, hb⟩ := h
  refine ⟨⟨v, hv, ?_⟩, ?_⟩
  · rw [hu]; rfl
  · rw [hb]; rfl

/-- Summing `t ↦ [i = t] * g t` over `t < n` picks out `g i`. -/
theorem sum_range_indicator_left (g : ℕ → ℚ) (n i : ℕ) (h : i < n) :
    ((List.range n).map fun t => (if i = t then (1 : ℚ) else 0) * g t).sum = g i := by
  induction n with
  | zero => exact absurd h (Nat.not_lt_zero i)
  | succ n ih =>
    rw [List.range_succ, List.map_append, List.sum_append]
    rcases Nat.lt_succ_iff_lt_or_eq.1 h with h' | h'
    · rw [ih h']
      simp [Nat.ne_of_lt h']
    · subst h'
      have h0 : ((List.range i).map fun t => (if i = t then (1 : ℚ) else 0) * g t).sum = 0 := by
        apply List.sum_eq_zero
        intro q hq
        simp only [List.mem_map, List.mem_range] at hq
        obtain ⟨t, ht, rfl⟩ := hq
        rw [if_neg (by omega), zero_mul]
      rw [h0, zero_add]
      simp

/-- Summing `t ↦ g t * [t = j]` over `t < n` picks out `g j`. -/
theorem sum_range_indicator_right (g : ℕ → ℚ) (n j : ℕ) (h : j < n) :
    ((List.range n).map fun t => g t * (if t = j then (1 : ℚ) else 0)).sum = g j := by
  induction n with
  | zero => exact absurd h (Nat.not_lt_zero j)
  | succ n ih =>
    rw [List.range_succ, List.map_append, List.sum_append]
    rcases Nat.lt_succ_iff_lt_or_eq.1 h with h' | h'
    · rw [ih h']
      simp [Nat.ne_of_gt h']
    · subst h'
      have h0 : ((List.range j).map fun t => g t * (if t = j then (1 : ℚ) else 0)).sum = 0 := by
        apply List.sum_eq_zero
        intro q hq
        simp only [List.mem_map, List.mem_range] at hq
        obtain ⟨t, ht, rfl⟩ := hq
        rw [if_neg (by omega), mul_zero]
      rw [h0, zero_add]
      simp

/-- Reading the identity matrix buffer at row `i`, column `t`. -/
theorem eyeFlat_getD (n i t : ℕ) (hi : i < n) (ht : t < n) :
    (eyeFlat n).getD (i * n + t) 0 = if i = t then (1 : ℚ) else 0 := by
  have hn : 0 < n := lt_of_le_of_lt (Nat.zero_le t) ht
  have hlt : i * n + t < n * n := by
    calc i * n + t < i * n + n := by omega
    _ = (i + 1) * n := by ring
    _ ≤ n * n := Nat.mul_le_mul_right n hi
  have hlen : (eyeFlat n).length = n * n := by simp [eyeFlat]
  rw [List.getD_eq_getElem _ _ (by rw [hlen]; exact hlt)]
  simp only [eyeFlat, List.getElem_map, List.getElem_range]
  have hdiv : (i * n + t) / n = i := by
    rw [show i * n + t = t + n * i by ring, Nat.add_mul_div_left _ _ hn,
      Nat.div_eq_of_lt ht, Nat.zero_add]
  have hmod : (i * n + t) % n = t := by
    rw [show i * n + t = t + n * i by ring, Nat.add_mul_mod_self_left,
      Nat.mod_eq_of_lt ht]
  rw [hdiv, hmod]

/-- Multiplying by the identity on the left is the identity. -/
theorem matMulFlat_eye_left (n : ℕ) (B : List ℚ) (hB : B.length = n * n) :
    matMulFlat n n n (eyeFlat n) B = B := by
  apply List.ext_getElem (by simp [matMulFlat, hB])
  intro idx h1 h2
  have hidx : idx < n * n := by rw [← hB]; exact h2
  have hn : 0 < n := by
    rcases Nat.eq_zero_or_pos n with rfl | hn
    · simp at hidx
    · exact hn
  have hi : idx / n < n := (Nat.div_lt_iff_lt_mul hn).2 hidx
  have hj : idx % n < n := Nat.mod_lt _ hn
  simp only [matMulFlat, List.getElem_map, List.getElem_range]
  rw [List.map_congr_left fun t ht => by
    rw [eyeFlat_getD n (idx / n) t hi (List.mem_range.1 ht)]]
  rw [sum_range_indicator_left (fun t => B.getD (t * n + idx % n) 0) n (idx / n) hi]
  have hix : idx / n * n + idx % n = idx := by
    rw [mul_comm]
    exact Nat.div_add_mod idx n
  rw [hix, List.getD_eq_getElem _ _ h2]

/-- Multiplying by the identity on the right is the identity. -/
theorem matMulFlat_eye_right (n : ℕ) (B : List ℚ) (hB : B.length = n * n) :
    matMulFlat n n n B (eyeFlat n) = B := by
  apply List.ext_getElem (by simp [matMulFlat, hB])
  intro idx h1 h2
  have hidx : idx < n * n := by rw [← hB]; exact h2
  have hn : 0 < n := by
    rcases Nat.eq_zero_or_pos n with rfl | hn
    · simp at hidx
    · exact hn
  have hi : idx / n < n := (Nat.div_lt_iff_lt_mul hn).2 hidx
  have hj : idx % n < n := Nat.mod_lt _ hn
  simp only [matMulFlat, List.getElem_map, List.getElem_range]
  rw [List.map_congr_left fun t ht => by
    rw [eyeFlat_getD n t (idx % n) (List.mem_range.1 ht) hj]]
  rw [sum_range_indicator_right (fun t => B.getD (idx / n * n + t) 0) n (idx % n) hj]
  have hix : idx / n * n + idx % n = idx := by
    rw [mul_comm]
    exact Nat.div_add_mod idx n
  rw [hix, List.getD_eq_getElem _ _ h2]

/-- Transposing the identity matrix gives it back. -/
theorem transposeFlat_eyeFlat (n : ℕ) : transposeFlat n n (eyeFlat n) = eyeFlat n := by
  apply List.ext_getElem (by simp [transposeFlat, eyeFlat])
  intro idx h1 h2
  have hidx : idx < n * n := by simpa [eyeFlat] using h2
  have hn : 0 < n := by
    rcases Nat.eq_zero_or_pos n with rfl | hn
    · simp at hidx
    · exact hn
  have hi : idx % n < n := Nat.mod_lt _ hn
  have ht : idx / n < n := (Nat.div_lt_iff_lt_mul hn).2 hidx
  simp only [transposeFlat, List.getElem_map, List.getElem_range]
  rw [eyeFlat_getD n (idx % n) (idx / n) hi ht]
  simp only [eyeFlat, List.getElem_map, List.getElem_range]
  by_cases hc : idx / n = idx % n
  · rw [if_pos hc, if_pos hc.symm]
  · rw [if_neg hc, if_neg fun hcc => hc hcc.symm]

/-- C9: for any `n × n` covariance buffer, propagating through the
identity Jacobian returns the covariance unchanged; and whenever the
trailing variable axes of the Jacobian do not match both halves of the
covariance's shape, the call fails with the assertion error. -/
theorem propagate_uncertainty_spec (n : ℕ) (cov : List ℚ)
    (hcov : cov.length = n * n) (cov2 jac2 : NdArr)
    (hmis : ¬ puShapesOk cov2 jac2) :
    propagate_uncertainty ⟨[n, n], cov⟩ ⟨[n, n], eyeFlat n⟩ = .ok ⟨[n, n], cov⟩
    ∧ propagate_uncertainty cov2 jac2 = .error "AssertionError" := by
  constructor
  · have hstep : propagate_uncertainty ⟨[n, n], cov⟩ ⟨[n, n], eyeFlat n⟩
        = .ok ⟨[n, n], matMulFlat n n n (matMulFlat n n n (eyeFlat n) cov)
            (transposeFlat n n (eyeFlat n))⟩ := by
      simp [propagate_uncertainty, puShapesOk]
    rw [hstep, matMulFlat_eye_left n cov hcov, transposeFlat_eyeFlat,
      matMulFlat_eye_right n cov hcov]
  · unfold propagate_uncertainty
    rw [if_neg hmis]

/-- C9 witness: a concrete `2 × 2` covariance through the identity, and a
rank-1 Jacobian whose variable axis `(3,)` mismatches the covariance
halves `(2,)`. -/
theorem propagate_uncertainty_spec_witness :
    propagate_uncertainty ⟨[2, 2], [1, 2, 3, 4]⟩ ⟨[2, 2], eyeFlat 2⟩
      = .ok ⟨[2, 2], [1, 2, 3, 4]⟩
    ∧ propagate_uncertainty ⟨[2, 2], [1, 2, 3, 4]⟩ ⟨[3], [1, 1, 1]⟩
      = .error "AssertionError" :=
  propagate_uncertainty_spec 2 [1, 2, 3, 4] (by decide)
    ⟨[2, 2], [1, 2, 3, 4]⟩ ⟨[3], [1, 1, 1]⟩ (by decide)

/-- A key absent from a dictionary stays absent after filtering. -/
theorem dlookup_filter_none (d : List (Key × NdArr)) (q : Key × NdArr → Bool)
    (v : Key) (h : dlookup d v = none) : dlookup (d.filter q) v = none := by
  induction d with
  | nil => rfl
  | cons p rest ih =>
    rw [dlookup] at h
    by_cases hpv : p.1 = v
    · rw [if_pos hpv] at h
      exact Option.noConfusion h
    · rw [if_neg hpv] at h
      rw [List.filter_cons]
      by_cases hq : q p
      · rw [if_pos hq, dlookup, if_neg hpv]
        exact ih h
      · rw [if_neg hq]
        exact ih h

/-- Removing key `k` by filtering makes `dlookup k` fail. -/
theorem dlookup_filter_self (d : List (Key × NdArr)) (k : Key) :
    dlookup (d.filter fun p => p.1 ≠ k) k = none := by
  induction d with
  | nil => rfl
  | cons p rest ih =>
    rw [List.filter_cons]
    by_cases hpk : p.1 = k
    · rw [if_neg (by simp [hpk])]
      exact ih
    · rw [if_pos (by simp [hpk]), dlookup, if_neg hpk]
      exact ih

/-- `dict.pop` never makes a key reappear. -/
theorem dlookup_dictPop_none (d : List (Key × NdArr)) (k v : Key)
    (dflt : NdArr) (h : dlookup d v = none) :
    dlookup (dictPop d k dflt).2 v = none := by
  rw [dictPop]
  cases dlookup d k with
  | none => exact h
  | some w => exact dlookup_filter_none d _ v h

/-- The starting-point pops never make a key reappear. -/
theorem dlookup_buildP0_none (sample : Key → NdArr) (free : List Key)
    (d : List (Key × NdArr)) (v : Key) (h : dlookup d v = none) :
    dlookup (buildP0 sample free d).2 v = none := by
  induction free generalizing d with
  | nil => exact h
  | cons u rest ih =>
    rw [buildP0]
    exact ih (dictPop d u (sample u)).2 (dlookup_dictPop_none d u v (sample u) h)

/-- C10: `OptFactor.maximise` pops every free variable out of the
caller-supplied `arrays_dict`, so after the call the dictionary no longer
contains any free-variable key — the starting-point argument is mutated,
not read-only.  (`sample` abstracts the random draw used when a key is
absent; it never re-enters the dictionary.) -/
theorem maximise_pops_free_vars (sample : Key → NdArr) (free : List Key)
    (arrays_dict : List (Key × NdArr)) (v : Key) (hv : v ∈ free) :
    dlookup (maximiseArraysAfter sample free arrays_dict) v = none := by
  induction free generalizing arrays_dict with
  | nil => exact absurd hv (List.not_mem_nil v)
  | cons u rest ih =>
    rw [maximiseArraysAfter, buildP0]
    rcases List.mem_cons.1 hv with rfl | hv'
    · have habs : dlookup (dictPop arrays_dict v (sample v)).2 v = none := by
        rw [dictPop]
        cases hl : dlookup arrays_dict v with
        | none => exact hl
        | some w => exact dlookup_filter_self arrays_dict v
      exact dlookup_buildP0_none sample rest _ v habs
    · exact ih _ hv'

/-- C10 witness: popping free variable `1` removes its entry from the
caller's two-entry dictionary. -/
theorem maximise_pops_free_vars_witness :
    dlookup (maximiseArraysAfter (fun _ => ⟨[], [0]⟩) [1]
      [(1, ⟨[], [7]⟩), (2, ⟨[], [8]⟩)]) 1 = none :=
  maximise_pops_free_vars (fun _ => ⟨[], [0]⟩) [1]
    [(1, ⟨[], [7]⟩), (2, ⟨[], [8]⟩)] 1 (by decide)

end PyAutoFit
